import Mathlib

/-!
Verification development for the hierarchical todo application
(Flask + SQLAlchemy backend, `src/models` + `src/app/services` + `src/app/routes`).

The persistent store is modelled as a list of item rows (`Store`).  Each
service / route operation of the source is translated into a pure function
from a store to a result together with the store after the request:

* Flask-SQLAlchemy uses one session per request; uncommitted mutations are
  rolled back at request teardown.  Operations that return a domain error
  before reaching `db.session.commit()` therefore leave the persisted store
  unchanged: in the embedding such paths return the original store.
* `TodoItem.query.get` is `queryGet`, filtering by `parent_id` is
  `childrenOf`, and in-place attribute mutation followed by commit is
  modelled by mapping over the store (`setCompleted`, `writeBack`).

Two layers are embedded.  The *literal* layer (`..._lit`) follows
`src/models/todo_item.py` exactly: that class maps no `priority` column and
defines none of the methods `can_be_completed`, `uncomplete_parent_chain`,
`auto_complete_parent_chain`, `is_ancestor_of`, so the service calls to them
raise Python exceptions, which the literal functions return as `PyExc`
values.  The *service* layer uses those four methods modelled from the
specification (their definitions are missing from the repository while their
callers and unit tests are present); each such definition carries a
`Modelled from the spec:` comment.
-/

/-- A row of the `todo_items` table.  Fields follow
`src/models/todo_item.py` (id, list_id, parent_id, title, description,
is_completed, is_collapsed, order) plus the `priority` column that
`src/add_priority_column.py` adds to the table (the mapped class itself does
not declare it; the literal layer accounts for that separately). -/
structure Item where
  id : Nat
  list_id : Nat
  parent_id : Option Nat
  title : String
  description : Option String := none
  is_completed : Bool := false
  is_collapsed : Bool := false
  priority : String := "medium"
  order : Int := 0
deriving DecidableEq, Repr

/-- The persisted contents of the `todo_items` table. -/
abbrev Store := List Item

/-- `TodoItem.query.get(i)`: first row with the given primary key. -/
def queryGet (s : Store) (i : Nat) : Option Item :=
  s.find? (fun j => j.id == i)

/-- Rows whose `parent_id` column equals the given id
(`TodoItem.query.filter_by(parent_id=i)`). -/
def childrenOf (s : Store) (i : Nat) : List Item :=
  s.filter (fun j => j.parent_id == some i)

/-- Assign `is_completed = b` on the row with the given id and flush. -/
def setCompleted (s : Store) (i : Nat) (b : Bool) : Store :=
  s.map (fun j => if j.id == i then { j with is_completed := b } else j)

/-- Flush the session object `it` back into the table (replace the row with
the same primary key). -/
def writeBack (s : Store) (it : Item) : Store :=
  s.map (fun j => if j.id == it.id then it else j)

/-- The ids on the parent chain starting at the given `parent_id` value,
walking `parent` links upward; fuel bounds the walk (the Python loop would
terminate on any acyclic store within `s.length` steps). -/
def chainIds : Nat → Store → Option Nat → List Nat
  | 0, _, _ => []
  | _ + 1, _, none => []
  | fuel + 1, s, some pid =>
    match queryGet s pid with
    | none => []
    | some p => pid :: chainIds fuel s p.parent_id

/-- Modelled from the spec: `allChildrenCompleted(item)` — true iff the item
has zero children or every direct child's completion flag is true
(§4.2; the model method is absent from `src/models/todo_item.py` while
`src/tests/test_models.py` exercises it through `can_be_completed`). -/
def allChildrenCompleted (s : Store) (i : Nat) : Bool :=
  (childrenOf s i).all (fun c => c.is_completed)

/-- Modelled from the spec: `canComplete(item)` equals
`allChildrenCompleted(item)` (§4.2); the source method
`TodoItem.can_be_completed` is missing from `src/models/todo_item.py`. -/
def can_be_completed (s : Store) (i : Nat) : Bool :=
  allChildrenCompleted s i

/-- Modelled from the spec: `uncompleteAncestorChain(item)` — walk upward
from `item.parent`; for every ancestor currently marked completed, clear its
completion flag; continue to the root with no early stop (§4.2).  The source
method `TodoItem.uncomplete_parent_chain` is missing from
`src/models/todo_item.py`.  Called with the item's `parent_id` and fuel
`s.length`. -/
def uncomplete_parent_chain : Nat → Store → Option Nat → Store
  | 0, s, _ => s
  | _ + 1, s, none => s
  | fuel + 1, s, some pid =>
    match queryGet s pid with
    | none => s
    | some p =>
      let s1 := if p.is_completed then setCompleted s pid false else s
      uncomplete_parent_chain fuel s1 p.parent_id

/-- Modelled from the spec: `autoCompleteAncestorChain(item)` — walk upward
from `item.parent`; for each ancestor, if all its direct children are
completed, mark it completed and continue; stop at the first ancestor that
is not fully completed, leaving it unchanged (§4.2).  The source method
`TodoItem.auto_complete_parent_chain` is missing from
`src/models/todo_item.py`. -/
def auto_complete_parent_chain : Nat → Store → Option Nat → Store
  | 0, s, _ => s
  | _ + 1, s, none => s
  | fuel + 1, s, some pid =>
    match queryGet s pid with
    | none => s
    | some p =>
      if allChildrenCompleted s pid then
        auto_complete_parent_chain fuel (setCompleted s pid true) p.parent_id
      else s

/-- Modelled from the spec: `isAncestorOf(candidateAncestor, item)` — true
iff the candidate appears on the parent chain of `item` (§4.2).  The source
method `TodoItem.is_ancestor_of` is missing from
`src/models/todo_item.py`.  `is_ancestor_of s a x`: item with id `a` is an
ancestor of the item `x`. -/
def is_ancestor_of (s : Store) (a : Nat) (x : Item) : Bool :=
  (chainIds s.length s x.parent_id).contains a

/-- A JSON patch for `update_item` (`src/app/services/todo_service.py`,
`TodoItemService.update_item`); `none` means the key is absent from the
request body. -/
structure Patch where
  title : Option String := none
  description : Option String := none
  order : Option Int := none
  is_completed : Option Bool := none
  is_collapsed : Option Bool := none
  priority : Option String := none
deriving DecidableEq, Repr

/-- `TodoItemService.VALID_PRIORITIES`. -/
def VALID_PRIORITIES : List String := ["low", "medium", "high", "urgent"]

/-- The f-string error of `TodoItemService.update_item` for a bad priority. -/
def invalidPriorityMsg : String :=
  "Invalid priority. Must be one of: " ++ String.intercalate ", " VALID_PRIORITIES

/-- `TodoItemService._handle_completion_update` (service layer,
`src/app/services/todo_service.py` lines 272-298), with the two missing
model methods supplied by the spec-modelled definitions above.  Receives the
working store (pending field updates flushed) and the session item. -/
def handle_completion_update (s : Store) (it : Item) (b : Bool) :
    Except String (Item × Store) :=
  if b && !(can_be_completed s it.id) then
    .error "Cannot complete task: child tasks must be completed first"
  else if !b && it.is_completed then
    let it1 := { it with is_completed := false }
    let s1 := writeBack s it1
    .ok (it1, uncomplete_parent_chain s1.length s1 it1.parent_id)
  else
    let it1 := { it with is_completed := b }
    if b then
      let s1 := writeBack s it1
      .ok (it1, auto_complete_parent_chain s1.length s1 it1.parent_id)
    else
      .ok (it1, s)

/-- Tail of `TodoItemService.update_item`: `is_collapsed`, `priority`
validation, and the final commit.  `s0` is the store at the start of the
request (returned on the validation error, which precedes any commit). -/
def update_item_tail (s0 s : Store) (it : Item) (p : Patch) :
    Option String × Store :=
  let it1 := match p.is_collapsed with
    | some c => { it with is_collapsed := c }
    | none => it
  match p.priority with
  | some pr =>
    if VALID_PRIORITIES.contains pr then
      (none, writeBack s { it1 with priority := pr })
    else
      (some invalidPriorityMsg, s0)
  | none => (none, writeBack s it1)

/-- The `is_completed` step of `TodoItemService.update_item`: run
`_handle_completion_update`; a validation error aborts before any commit
(original store `s0` kept), otherwise the remaining patch fields are
processed on the working store. -/
def update_item_completion_step (s0 sf : Store) (it3 : Item) (p : Patch)
    (b : Bool) : Option String × Store :=
  match handle_completion_update sf it3 b with
  | .error e => (some e, s0)
  | .ok r => update_item_tail s0 r.2 r.1 p

/-- `TodoItemService.update_item` (service layer), with the missing model
methods spec-modelled.  Returns the error of the `(item, error)` pair and
the persisted store after the request: an error is returned before any
commit, so the original store is kept (session rollback at teardown). -/
def update_item (s : Store) (itemId : Nat) (p : Patch) : Option String × Store :=
  match queryGet s itemId with
  | none => (some "Item not found", s)
  | some it0 =>
    let it1 := match p.title with | some t => { it0 with title := t } | none => it0
    let it2 := match p.description with
      | some d => { it1 with description := some d }
      | none => it1
    let it3 := match p.order with | some o => { it2 with order := o } | none => it2
    match p.is_completed with
    | some b => update_item_completion_step s (writeBack s it3) it3 p b
    | none => update_item_tail s (writeBack s it3) it3 p

/-- `TodoItemService.create_item` (service layer; note the source performs
no parent validation here — the route does).  `newId` is the primary key the
database assigns to the inserted row.  The missing
`uncomplete_parent_chain` is spec-modelled. -/
def create_item (s : Store) (newId : Nat) (list_id : Nat) (title : String)
    (parent_id : Option Nat) (description : Option String)
    (priority : String) (order : Int) : Item × Store :=
  let it : Item := { id := newId, list_id := list_id, parent_id := parent_id,
                     title := title, description := description,
                     priority := priority, order := order }
  let s1 := s ++ [it]
  match parent_id with
  | none => (it, s1)
  | some pid =>
    match queryGet s1 pid with
    | none => (it, s1)
    | some par =>
      if par.is_completed then
        let s2 := setCompleted s1 pid false
        (it, uncomplete_parent_chain s2.length s2 par.parent_id)
      else (it, s1)

/-- `TodoItemService._update_item_order`: assign `maxOrder + 1` in the new
sibling scope.  The `... .scalar() or 0` of the source maps both SQL `NULL`
and `0` to `0`, which is `Option.getD 0`.  The max queries run after the
parent change has been flushed, so they range over the store that already
contains the moved item under its new parent. -/
def update_item_order (s : Store) (it : Item) (newParentId : Option Nat) : Item :=
  match newParentId with
  | none =>
    let m := ((s.filter (fun j => j.list_id == it.list_id && j.parent_id == none)).map
      (fun j => j.order)).max?.getD 0
    { it with order := m + 1 }
  | some pid =>
    let m := ((s.filter (fun j => j.parent_id == some pid)).map
      (fun j => j.order)).max?.getD 0
    { it with order := m + 1 }

/-- `TodoItemService._handle_parent_chain_updates` (lines 403-422), with the
missing `uncomplete_parent_chain` spec-modelled.  Note the source calls the
chain on the old/new parent, which walks upward from that parent's own
parent: the old/new parent's flag itself is not assigned here. -/
def handle_parent_chain_updates (s : Store) (oldPid newPid : Option Nat) : Store :=
  let s1 := match oldPid with
    | none => s
    | some pid =>
      match queryGet s pid with
      | none => s
      | some p =>
        if p.is_completed then uncomplete_parent_chain s.length s p.parent_id else s
  match newPid with
  | none => s1
  | some pid =>
    match queryGet s1 pid with
    | none => s1
    | some p =>
      if p.is_completed then uncomplete_parent_chain s1.length s1 p.parent_id else s1

/-- `TodoItemService.move_to_parent` (service layer), with the missing
`is_ancestor_of` and `uncomplete_parent_chain` spec-modelled. -/
def move_to_parent (s : Store) (itemId : Nat) (newParentId : Option Nat) :
    Option String × Store :=
  match queryGet s itemId with
  | none => (some "Item not found", s)
  | some it =>
    let err : Option String :=
      match newParentId with
      | none => none
      | some npid =>
        match queryGet s npid with
        | none => some "Parent item not found"
        | some np =>
          if np.list_id != it.list_id then some "Cannot move to different list"
          else if np.id == it.id || is_ancestor_of s it.id np then
            some "Cannot move to descendant"
          else none
    match err with
    | some e => (some e, s)
    | none =>
      if it.parent_id == newParentId then (none, s)
      else
        let it1 := { it with parent_id := newParentId }
        let s1 := writeBack s it1
        let it2 := update_item_order s1 it1 newParentId
        let s2 := writeBack s1 it2
        (none, handle_parent_chain_updates s2 it.parent_id newParentId)

/-- `TodoItemService.move_to_list` (lines 311-330): only the moved row's own
`list_id` column is assigned; no other row is touched. -/
def move_to_list (s : Store) (itemId : Nat) (target_list_id : Nat) :
    Option String × Store :=
  match queryGet s itemId with
  | none => (some "Item not found", s)
  | some it =>
    if it.parent_id.isSome then (some "Can only move top-level items", s)
    else (none, writeBack s { it with list_id := target_list_id })

/-- `TodoListService.complete_all_tasks` (lines 106-127): iterate the rows
with the given `list_id`, count those whose flag was false, set every flag
to true (setting an already-true flag leaves the row unchanged). -/
def complete_all_tasks (s : Store) (list_id : Nat) : Nat × Store :=
  let count := s.foldl
    (fun acc j => if j.list_id == list_id && !j.is_completed then acc + 1 else acc) 0
  let s1 := s.map
    (fun j => if j.list_id == list_id then { j with is_completed := true } else j)
  (count, s1)

/-- `TodoItemService.delete_item` (lines 300-309): literal semantics of
`db.session.delete(item)` under the relationship as declared in
`src/models/todo_item.py` lines 102-110.  There `children` carries
`remote_side=[id]`, which on a self-referential relationship makes it a
many-to-one pointing at the item's parent (hence the `single_parent=True`
required for `delete-orphan` on a many-to-one; the backref `parent`, with
`remote_side=[parent_id]`, is the actual children collection).  The
`all, delete-orphan` cascade therefore follows parent links upward: the
item is deleted together with its whole ancestor chain.  Rows referencing a
deleted row are de-associated at flush — their `parent_id` is set to NULL —
since the one-to-many backref has no delete cascade, and the column-level
`ondelete='CASCADE'` never fires (SQLite foreign-key enforcement is never
enabled). -/
def delete_item (s : Store) (itemId : Nat) : Store :=
  match queryGet s itemId with
  | none => s
  | some it =>
    let deadIds := itemId :: chainIds s.length s it.parent_id
    (s.filter (fun j => !(deadIds.contains j.id))).map
      (fun j => match j.parent_id with
        | some p => if deadIds.contains p then { j with parent_id := none } else j
        | none => j)

/-- Deleting a `TodoList` cascades to every item row carrying its
`list_id` (`TodoList.items`, cascade `all, delete-orphan`, and the
`ondelete='CASCADE'` foreign key on `todo_items.list_id`). -/
def delete_list_items (s : Store) (list_id : Nat) : Store :=
  s.filter (fun j => !(j.list_id == list_id))

/-- Parent validation of the `POST /items` route
(`src/app/routes/todo.py` lines 241-252), with the HTTP status it answers:
absent parent gives 404, a parent from another list gives 400. -/
def create_item_route_check (s : Store) (list_id : Nat) (parent_id : Option Nat) :
    Option (Nat × String) :=
  match parent_id with
  | none => none
  | some pid =>
    match queryGet s pid with
    | none => some (404, "Parent item not found")
    | some par =>
      if par.list_id != list_id then some (400, "Parent item not in same list")
      else none

/-- A Python exception escaping an operation. -/
inductive PyExc where
  | attributeError (attr : String)
  | typeError (msg : String)
deriving DecidableEq, Repr

/-- The attribute names the literal `TodoItem` declarative class exposes to
its constructor: the mapped columns of `src/models/todo_item.py` plus the
relationship `children` and its backref `parent`, and the `list` backref
from `src/models/todo_list.py`.  `priority` is not among them. -/
def todoItemAttrs : List String :=
  ["id", "list_id", "parent_id", "title", "description", "is_completed",
   "is_collapsed", "order", "created_at", "updated_at", "children", "parent",
   "list"]

/-- The keyword arguments `TodoItemService.create_item` passes to the
`TodoItem` constructor (lines 207-214). -/
def create_item_kwargs : List String :=
  ["list_id", "parent_id", "title", "description", "priority", "order"]

/-- Literal `TodoItemService.create_item`: the `TodoItem(**kwargs)` call
raises `TypeError` for any keyword that is not a mapped attribute; were the
construction to succeed, a completed parent would still lead to the missing
`uncomplete_parent_chain` method. -/
def create_item_lit (s : Store) (newId : Nat) (list_id : Nat) (title : String)
    (parent_id : Option Nat) (description : Option String)
    (priority : String) (order : Int) : Except PyExc (Item × Store) :=
  match create_item_kwargs.find? (fun k => !(todoItemAttrs.contains k)) with
  | some k => .error (.typeError (k ++ " is an invalid keyword argument for TodoItem"))
  | none =>
    let it : Item := { id := newId, list_id := list_id, parent_id := parent_id,
                       title := title, description := description,
                       priority := priority, order := order }
    let s1 := s ++ [it]
    match parent_id with
    | none => .ok (it, s1)
    | some pid =>
      match queryGet s1 pid with
      | none => .ok (it, s1)
      | some par =>
        if par.is_completed then .error (.attributeError "uncomplete_parent_chain")
        else .ok (it, s1)

/-- Literal tail of `update_item`: like `update_item_tail`, except that a
valid `priority` value is only set as a plain instance attribute (the class
maps no such column), so the commit persists no priority change. -/
def update_item_tail_lit (s0 s : Store) (it : Item) (p : Patch) :
    Option String × Store :=
  let it1 := match p.is_collapsed with
    | some c => { it with is_collapsed := c }
    | none => it
  match p.priority with
  | some pr =>
    if VALID_PRIORITIES.contains pr then (none, writeBack s it1)
    else (some invalidPriorityMsg, s0)
  | none => (none, writeBack s it1)

/-- Literal `TodoItemService.update_item`: asking to complete evaluates the
undefined `item.can_be_completed` and raises; asking to uncomplete a
currently-completed item reaches the undefined
`item.uncomplete_parent_chain` and raises; uncompleting an already
incomplete item takes the harmless `else` branch. -/
def update_item_lit (s : Store) (itemId : Nat) (p : Patch) :
    Except PyExc (Option String × Store) :=
  match queryGet s itemId with
  | none => .ok (some "Item not found", s)
  | some it0 =>
    let it1 := match p.title with | some t => { it0 with title := t } | none => it0
    let it2 := match p.description with
      | some d => { it1 with description := some d }
      | none => it1
    let it3 := match p.order with | some o => { it2 with order := o } | none => it2
    match p.is_completed with
    | some b =>
      if b then .error (.attributeError "can_be_completed")
      else if it3.is_completed then .error (.attributeError "uncomplete_parent_chain")
      else .ok (update_item_tail_lit s (writeBack s it3) it3 p)
    | none => .ok (update_item_tail_lit s (writeBack s it3) it3 p)

/-- Literal `TodoItemService.move_to_parent`: with an existing same-list
target other than the item itself, the cycle check evaluates the undefined
`item.is_ancestor_of` and raises; an absent or cross-list target returns a
domain error first; moving to root proceeds until the completed old parent
(if any) reaches the undefined `uncomplete_parent_chain`. -/
def move_to_parent_lit (s : Store) (itemId : Nat) (newParentId : Option Nat) :
    Except PyExc (Option String × Store) :=
  match queryGet s itemId with
  | none => .ok (some "Item not found", s)
  | some it =>
    match newParentId with
    | some npid =>
      match queryGet s npid with
      | none => .ok (some "Parent item not found", s)
      | some np =>
        if np.list_id != it.list_id then .ok (some "Cannot move to different list", s)
        else if np.id == it.id then .ok (some "Cannot move to descendant", s)
        else .error (.attributeError "is_ancestor_of")
    | none =>
      match it.parent_id with
      | none => .ok (none, s)
      | some oldPid =>
        let it1 := { it with parent_id := none }
        let s1 := writeBack s it1
        let it2 := update_item_order s1 it1 none
        let s2 := writeBack s1 it2
        match queryGet s2 oldPid with
        | some op =>
          if op.is_completed then .error (.attributeError "uncomplete_parent_chain")
          else .ok (none, s2)
        | none => .ok (none, s2)

/-- A table with no duplicated primary keys. -/
def idsNodup (s : Store) : Prop := (s.map Item.id).Nodup

instance (s : Store) : Decidable (idsNodup s) := by
  unfold idsNodup; infer_instance

/-- Clear the completion flag of the rows whose id lies in `L`. -/
def clearOn (L : List Nat) (j : Item) : Item :=
  if L.contains j.id then { j with is_completed := false } else j

theorem clearOn_id (L : List Nat) (j : Item) : (clearOn L j).id = j.id := by
  unfold clearOn; split <;> rfl

theorem clearOn_parent_id (L : List Nat) (j : Item) :
    (clearOn L j).parent_id = j.parent_id := by
  unfold clearOn; split <;> rfl

theorem set_false_eq_self {j : Item} (h : j.is_completed = false) :
    ({ j with is_completed := false } : Item) = j := by
  cases j
  simp only at h
  simp [h]

theorem set_true_eq_self {j : Item} (h : j.is_completed = true) :
    ({ j with is_completed := true } : Item) = j := by
  cases j
  simp only at h
  simp [h]

theorem map_clearOn_nil (s : Store) : s.map (clearOn []) = s := by
  have h : ∀ j ∈ s, clearOn [] j = j := by
    intro j _; unfold clearOn; simp
  calc s.map (clearOn []) = s.map id := List.map_congr_left (by simpa using h)
    _ = s := List.map_id s

theorem queryGet_mem {s : Store} {k : Nat} {p : Item} (h : queryGet s k = some p) :
    p ∈ s :=
  List.mem_of_find?_eq_some h

theorem queryGet_id {s : Store} {k : Nat} {p : Item} (h : queryGet s k = some p) :
    p.id = k := by
  have := List.find?_some h
  simpa using this

theorem queryGet_unique {s : Store} {k : Nat} {p : Item} (hn : idsNodup s)
    (h : queryGet s k = some p) : ∀ j ∈ s, j.id = k → j = p := by
  induction s with
  | nil => intro j hj; simp at hj
  | cons a t ih =>
    intro j hj hjk
    unfold queryGet at h
    rw [List.find?_cons] at h
    cases hab : (a.id == k) with
    | true =>
      rw [hab] at h
      simp only [Option.some.injEq] at h
      rcases List.mem_cons.mp hj with rfl | hjt
      · exact h
      · exfalso
        have hak : a.id = k := by simpa using hab
        have : a.id ∈ t.map Item.id := by
          rw [hak, ← hjk]; exact List.mem_map_of_mem Item.id hjt
        exact (List.nodup_cons.mp hn).1 this
    | false =>
      rw [hab] at h
      rcases List.mem_cons.mp hj with rfl | hjt
      · simp [hjk] at hab
      · exact ih (List.nodup_cons.mp hn).2 h j hjt hjk

theorem queryGet_map {s : Store} (f : Item → Item)
    (hf : ∀ j ∈ s, (f j).id = j.id) (k : Nat) :
    queryGet (s.map f) k = (queryGet s k).map f := by
  induction s with
  | nil => rfl
  | cons a t ih =>
    unfold queryGet at *
    simp only [List.map_cons, List.find?_cons]
    rw [hf a (List.mem_cons_self a t)]
    by_cases ha : (a.id == k) = true
    · simp [ha]
    · simp only [Bool.not_eq_true] at ha
      rw [ha]
      simpa using ih (fun j hj => hf j (List.mem_cons_of_mem a hj))

theorem ids_map {s : Store} (f : Item → Item)
    (hf : ∀ j ∈ s, (f j).id = j.id) :
    (s.map f).map Item.id = s.map Item.id := by
  rw [List.map_map]
  exact List.map_congr_left (fun j hj => hf j hj)

theorem idsNodup_map {s : Store} (f : Item → Item)
    (hf : ∀ j ∈ s, (f j).id = j.id) (hn : idsNodup s) : idsNodup (s.map f) := by
  unfold idsNodup
  rw [ids_map f hf]
  exact hn

theorem chainIds_map {s : Store} (f : Item → Item)
    (hfid : ∀ j ∈ s, (f j).id = j.id)
    (hfp : ∀ j ∈ s, (f j).parent_id = j.parent_id) :
    ∀ (fuel : Nat) (pid : Option Nat), chainIds fuel (s.map f) pid = chainIds fuel s pid := by
  intro fuel
  induction fuel with
  | zero => intro pid; rfl
  | succ n ih =>
    intro pid
    match pid with
    | none => rfl
    | some pidv =>
      simp only [chainIds]
      rw [queryGet_map f hfid pidv]
      cases hq : queryGet s pidv with
      | none => rfl
      | some p =>
        have hmp : Option.map f (some p) = some (f p) := rfl
        rw [hmp]
        show pidv :: chainIds n (s.map f) (f p).parent_id = pidv :: chainIds n s p.parent_id
        rw [hfp p (queryGet_mem hq), ih]

theorem clearOn_single (a : Nat) (j : Item) :
    clearOn [a] j = if j.id == a then { j with is_completed := false } else j := by
  unfold clearOn
  simp

theorem setCompleted_false_eq_map (s : Store) (a : Nat) :
    setCompleted s a false = s.map (clearOn [a]) := by
  unfold setCompleted
  exact List.map_congr_left (fun j _ => (clearOn_single a j).symm)

theorem clearOn_cons (a : Nat) (C : List Nat) (j : Item) :
    clearOn C (clearOn [a] j) = clearOn (a :: C) j := by
  by_cases h : j.id = a
  · by_cases hC : j.id ∈ C
    · simp [clearOn, h, hC]
    · simp [clearOn, h, hC]
  · simp [clearOn, h]

theorem uncomplete_chain_eq :
    ∀ (fuel : Nat) (s : Store) (pid : Option Nat), idsNodup s →
      uncomplete_parent_chain fuel s pid = s.map (clearOn (chainIds fuel s pid)) := by
  intro fuel
  induction fuel with
  | zero =>
    intro s pid _
    rw [show chainIds 0 s pid = [] from rfl, map_clearOn_nil]
    rfl
  | succ n ih =>
    intro s pid hn
    match pid with
    | none =>
      rw [show chainIds (n + 1) s none = [] from rfl, map_clearOn_nil]
      rfl
    | some pidv =>
      cases hq : queryGet s pidv with
      | none =>
        have h1 : uncomplete_parent_chain (n + 1) s (some pidv) = s := by
          simp [uncomplete_parent_chain, hq]
        have h2 : chainIds (n + 1) s (some pidv) = [] := by
          simp [chainIds, hq]
        rw [h1, h2, map_clearOn_nil]
      | some p =>
        have h1 : uncomplete_parent_chain (n + 1) s (some pidv)
            = uncomplete_parent_chain n
                (if p.is_completed then setCompleted s pidv false else s) p.parent_id := by
          simp [uncomplete_parent_chain, hq]
        have h2 : chainIds (n + 1) s (some pidv) = pidv :: chainIds n s p.parent_id := by
          simp [chainIds, hq]
        have hs1 : (if p.is_completed then setCompleted s pidv false else s)
            = s.map (clearOn [pidv]) := by
          by_cases hc : p.is_completed = true
          · rw [if_pos hc, setCompleted_false_eq_map]
          · rw [if_neg hc]
            have hpt : ∀ j ∈ s, clearOn [pidv] j = j := by
              intro j hj
              rw [clearOn_single]
              by_cases hid : (j.id == pidv) = true
              · have hj_eq : j = p := queryGet_unique hn hq j hj (by simpa using hid)
                rw [if_pos hid, hj_eq]
                exact set_false_eq_self (by simpa using hc)
              · rw [if_neg hid]
            calc s = s.map id := (List.map_id s).symm
              _ = s.map (clearOn [pidv]) :=
                  List.map_congr_left (fun j hj => ((hpt j hj).symm : id j = _))
        have hfid : ∀ j ∈ s, (clearOn [pidv] j).id = j.id := fun j _ => clearOn_id _ _
        have hfp : ∀ j ∈ s, (clearOn [pidv] j).parent_id = j.parent_id :=
          fun j _ => clearOn_parent_id _ _
        rw [h1, h2, hs1, ih (s.map (clearOn [pidv])) p.parent_id (idsNodup_map _ hfid hn),
          chainIds_map _ hfid hfp, List.map_map]
        exact List.map_congr_left
          (fun j _ => (clearOn_cons pidv (chainIds n s p.parent_id) j :
            clearOn (chainIds n s p.parent_id) (clearOn [pidv] j) = _))

theorem setCompleted_ids (s : Store) (a : Nat) (b : Bool) :
    (setCompleted s a b).map Item.id = s.map Item.id := by
  unfold setCompleted
  exact ids_map _ (fun j _ => by split <;> rfl)

theorem auto_chain_ids :
    ∀ (fuel : Nat) (s : Store) (pid : Option Nat),
      (auto_complete_parent_chain fuel s pid).map Item.id = s.map Item.id := by
  intro fuel
  induction fuel with
  | zero => intro s pid; rfl
  | succ n ih =>
    intro s pid
    match pid with
    | none => rfl
    | some pidv =>
      cases hq : queryGet s pidv with
      | none => simp [auto_complete_parent_chain, hq]
      | some p =>
        by_cases hall : allChildrenCompleted s pidv = true
        · have h1 : auto_complete_parent_chain (n + 1) s (some pidv)
              = auto_complete_parent_chain n (setCompleted s pidv true) p.parent_id := by
            simp [auto_complete_parent_chain, hq, hall]
          rw [h1, ih, setCompleted_ids]
        · have h1 : auto_complete_parent_chain (n + 1) s (some pidv) = s := by
            simp [auto_complete_parent_chain, hq, hall]
          rw [h1]

theorem writeBack_ids (s : Store) (it : Item) :
    (writeBack s it).map Item.id = s.map Item.id := by
  unfold writeBack
  refine ids_map _ (fun j _ => ?_)
  by_cases h : j.id = it.id
  · simp [h]
  · simp [h]

theorem writeBack_self {s : Store} {k : Nat} {it : Item} (hn : idsNodup s)
    (hq : queryGet s k = some it) : writeBack s it = s := by
  unfold writeBack
  have hpt : ∀ j ∈ s, (if j.id == it.id then it else j) = j := by
    intro j hj
    by_cases h : (j.id == it.id) = true
    · rw [if_pos h]
      exact (queryGet_unique hn hq j hj (by rw [queryGet_id hq] at h; simpa using h)).symm
    · rw [if_neg h]
  calc s.map (fun j => if j.id == it.id then it else j) = s.map id :=
      List.map_congr_left (by simpa using hpt)
    _ = s := List.map_id s

theorem queryGet_isSome_of_id_mem {s : Store} {k : Nat}
    (h : k ∈ s.map Item.id) : (queryGet s k).isSome := by
  induction s with
  | nil => simp at h
  | cons a t ih =>
    unfold queryGet
    rw [List.find?_cons]
    cases hab : (a.id == k) with
    | true => rfl
    | false =>
      have h2 : k = a.id ∨ k ∈ t.map Item.id := by simpa using h
      rcases h2 with h1 | h1
      · exact absurd (by simp [h1]) (by simpa using hab : ¬a.id = k)
      · exact ih h1

theorem queryGet_writeBack_self {s : Store} {it : Item}
    (h : it.id ∈ s.map Item.id) : queryGet (writeBack s it) it.id = some it := by
  have hf : ∀ j ∈ s, ((fun j => if j.id == it.id then it else j) j).id = j.id := by
    intro j _
    by_cases hb : j.id = it.id
    · simp [hb]
    · simp [hb]
  rw [writeBack, queryGet_map _ hf it.id]
  cases hq : queryGet s it.id with
  | none =>
    exfalso
    have hs := queryGet_isSome_of_id_mem h
    rw [hq] at hs
    simp at hs
  | some j0 =>
    have hid : j0.id = it.id := queryGet_id hq
    simp [hid]

theorem allChildrenCompleted_false {s : Store} {i : Nat} {c : Item}
    (hc : c ∈ s) (hp : c.parent_id = some i) (hf : c.is_completed = false) :
    allChildrenCompleted s i = false := by
  unfold allChildrenCompleted childrenOf
  rw [List.all_eq_false]
  exact ⟨c, List.mem_filter.mpr ⟨hc, by simp [hp]⟩, by simp [hf]⟩

theorem allChildrenCompleted_true {s : Store} {i : Nat}
    (h : ∀ c ∈ s, c.parent_id = some i → c.is_completed = true) :
    allChildrenCompleted s i = true := by
  unfold allChildrenCompleted childrenOf
  rw [List.all_eq_true]
  intro c hcm
  have hm := List.mem_filter.mp hcm
  exact h c hm.1 (by simpa using hm.2)

theorem update_item_complete_unfold {s : Store} {itemId : Nat} {it0 : Item}
    (hn : idsNodup s) (hq : queryGet s itemId = some it0) (b : Bool) :
    update_item s itemId { is_completed := some b } =
      match handle_completion_update s it0 b with
      | .error e => (some e, s)
      | .ok (it4, s4) => (none, writeBack s4 it4) := by
  simp only [update_item, hq]
  rw [writeBack_self hn hq]
  cases hh : handle_completion_update s it0 b with
  | error e => simp [update_item_completion_step, hh]
  | ok pr =>
    cases pr with
    | mk it4 s4 => simp [update_item_completion_step, hh, update_item_tail]

theorem handle_completion_true_error {s : Store} {it0 : Item}
    (hfalse : can_be_completed s it0.id = false) :
    handle_completion_update s it0 true
      = .error "Cannot complete task: child tasks must be completed first" := by
  unfold handle_completion_update
  simp [hfalse]

theorem handle_completion_true_ok {s : Store} {it0 : Item}
    (htrue : can_be_completed s it0.id = true) :
    handle_completion_update s it0 true =
      .ok ({ it0 with is_completed := true },
        auto_complete_parent_chain (writeBack s { it0 with is_completed := true }).length
          (writeBack s { it0 with is_completed := true }) it0.parent_id) := by
  unfold handle_completion_update
  simp [htrue]

theorem handle_completion_false_completed {s : Store} {it0 : Item}
    (hc : it0.is_completed = true) :
    handle_completion_update s it0 false =
      .ok ({ it0 with is_completed := false },
        uncomplete_parent_chain (writeBack s { it0 with is_completed := false }).length
          (writeBack s { it0 with is_completed := false }) it0.parent_id) := by
  unfold handle_completion_update
  simp [hc]

theorem handle_completion_false_incomplete {s : Store} {it0 : Item}
    (hc : it0.is_completed = false) :
    handle_completion_update s it0 false = .ok (it0, s) := by
  unfold handle_completion_update
  simp [hc, set_false_eq_self hc]

/-- Store with the three-level chain A→B→C (C only child of B, B only child
of A), all incomplete. -/
def chainStore : Store := [
  { id := 1, list_id := 1, parent_id := none, title := "A" },
  { id := 2, list_id := 1, parent_id := some 1, title := "B" },
  { id := 3, list_id := 1, parent_id := some 2, title := "C" }]

/-- `chainStore` with every completion flag set. -/
def chainStoreDone : Store := [
  { id := 1, list_id := 1, parent_id := none, title := "A", is_completed := true },
  { id := 2, list_id := 1, parent_id := some 1, title := "B", is_completed := true },
  { id := 3, list_id := 1, parent_id := some 2, title := "C", is_completed := true }]

/-- `chainStore` plus a second, incomplete child D of A. -/
def chainStoreD : Store :=
  chainStore ++ [{ id := 4, list_id := 1, parent_id := some 1, title := "D" }]

/-- Completing C in `chainStoreD`: C and then B complete, the ascent halts
at A (whose child D is incomplete), leaving A and D untouched. -/
def chainStoreDHalt : Store := [
  { id := 1, list_id := 1, parent_id := none, title := "A" },
  { id := 2, list_id := 1, parent_id := some 1, title := "B", is_completed := true },
  { id := 3, list_id := 1, parent_id := some 2, title := "C", is_completed := true },
  { id := 4, list_id := 1, parent_id := some 1, title := "D" }]

/-- C1: `updateItem(item, {isCompleted: true})` fails with the
children-must-complete-first validation error (and an unchanged store) when
some direct child is incomplete; with no children or all children complete
it succeeds and sets the item's flag, and the ancestor auto-complete chain
runs: in the chain A→B→C completing C completes B and A in the same
operation, while with an extra incomplete child D of A the ascent halts at
A, leaving A's state unchanged. -/
theorem C1_complete_transition :
    (∀ (s : Store) (itemId : Nat) (it0 : Item), idsNodup s →
      queryGet s itemId = some it0 →
      ((∃ c ∈ s, c.parent_id = some itemId ∧ c.is_completed = false) →
        update_item s itemId { is_completed := some true }
          = (some "Cannot complete task: child tasks must be completed first", s))
      ∧ ((∀ c ∈ s, c.parent_id = some itemId → c.is_completed = true) →
        (update_item s itemId { is_completed := some true }).1 = none
        ∧ queryGet (update_item s itemId { is_completed := some true }).2 itemId
            = some { it0 with is_completed := true }))
    ∧ update_item chainStore 3 { is_completed := some true } = (none, chainStoreDone)
    ∧ update_item chainStoreD 3 { is_completed := some true } = (none, chainStoreDHalt) := by
  refine ⟨?_, by decide, by decide⟩
  intro s itemId it0 hn hq
  have hid : it0.id = itemId := queryGet_id hq
  constructor
  · rintro ⟨c, hc, hp, hf⟩
    have hfalse : can_be_completed s it0.id = false := by
      unfold can_be_completed
      rw [hid]
      exact allChildrenCompleted_false hc hp hf
    rw [update_item_complete_unfold hn hq true, handle_completion_true_error hfalse]
  · intro hall
    have htrue : can_be_completed s it0.id = true := by
      unfold can_be_completed
      rw [hid]
      exact allChildrenCompleted_true hall
    have heq : update_item s itemId { is_completed := some true }
        = (none, writeBack
            (auto_complete_parent_chain
              (writeBack s { it0 with is_completed := true }).length
              (writeBack s { it0 with is_completed := true }) it0.parent_id)
            { it0 with is_completed := true }) := by
      rw [update_item_complete_unfold hn hq true, handle_completion_true_ok htrue]
    rw [heq]
    refine ⟨rfl, ?_⟩
    have hmem : ({ it0 with is_completed := true } : Item).id
        ∈ (auto_complete_parent_chain
            (writeBack s { it0 with is_completed := true }).length
            (writeBack s { it0 with is_completed := true }) it0.parent_id).map Item.id := by
      rw [auto_chain_ids, writeBack_ids]
      show it0.id ∈ s.map Item.id
      exact List.mem_map_of_mem Item.id (queryGet_mem hq)
    rw [← hid]
    exact queryGet_writeBack_self hmem

/-- Witness for C1: in `chainStoreD`, completing A (which has the incomplete
children B and D) is rejected with the validation error and an unchanged
store. -/
theorem C1_complete_transition_witness :
    update_item chainStoreD 1 { is_completed := some true }
      = (some "Cannot complete task: child tasks must be completed first",
         chainStoreD) := by
  have h := ((C1_complete_transition.1 chainStoreD 1
      { id := 1, list_id := 1, parent_id := none, title := "A" }
      (by decide) (by decide)).1)
  exact h ⟨{ id := 2, list_id := 1, parent_id := some 1, title := "B" },
    by decide, by decide, by decide⟩

theorem chainIds_setCompleted (s : Store) (a : Nat) (b : Bool) (fuel : Nat)
    (pid : Option Nat) :
    chainIds fuel (setCompleted s a b) pid = chainIds fuel s pid := by
  unfold setCompleted
  refine chainIds_map _ (fun j _ => ?_) (fun j _ => ?_) fuel pid
  · by_cases h : j.id = a
    · simp [h]
    · simp [h]
  · by_cases h : j.id = a
    · simp [h]
    · simp [h]

theorem setCompleted_length (s : Store) (a : Nat) (b : Bool) :
    (setCompleted s a b).length = s.length := by
  unfold setCompleted
  exact List.length_map _ _

theorem writeBack_set_false {s : Store} {itemId : Nat} {it0 : Item}
    (hn : idsNodup s) (hq : queryGet s itemId = some it0) :
    writeBack s { it0 with is_completed := false } = setCompleted s itemId false := by
  unfold writeBack setCompleted
  refine List.map_congr_left (fun j hj => ?_)
  have hid : it0.id = itemId := queryGet_id hq
  by_cases hb : j.id = itemId
  · have hj0 : j = it0 := queryGet_unique hn hq j hj hb
    subst hj0
    simp [hid]
  · have h1 : ¬j.id = ({ it0 with is_completed := false } : Item).id := by
      show ¬j.id = it0.id
      rw [hid]; exact hb
    simp [hb, h1]

theorem writeBack_fixed {X : Store} {it : Item}
    (h : ∀ j ∈ X, j.id = it.id → j = it) : writeBack X it = X := by
  unfold writeBack
  calc X.map (fun j => if j.id == it.id then it else j) = X.map id :=
      List.map_congr_left (fun j hj => by
        by_cases hb : j.id = it.id
        · simp only [hb, beq_self_eq_true, if_true, id]
          exact (h j hj hb).symm
        · simp [hb])
    _ = X := List.map_id X

theorem clearOn_after_set (itemId : Nat) (C : List Nat) (j : Item) :
    clearOn C (if j.id == itemId then { j with is_completed := false } else j)
      = (if j.id == itemId || C.contains j.id then { j with is_completed := false }
         else j) := by
  by_cases h : j.id = itemId
  · by_cases hC : j.id ∈ C
    · simp [clearOn, h, hC]
    · simp [clearOn, h, hC]
  · by_cases hC : j.id ∈ C
    · simp [clearOn, h, hC]
    · simp [clearOn, h, hC]

/-- The uncomplete transition on a currently-completed item: the item's flag
and the flags of everything on its fuel-bounded ancestor chain are cleared;
every other row is untouched. -/
theorem update_uncomplete_completed {s : Store} {itemId : Nat} {it0 : Item}
    (hn : idsNodup s) (hq : queryGet s itemId = some it0)
    (hc : it0.is_completed = true) :
    update_item s itemId { is_completed := some false }
      = (none, s.map (fun j =>
          if j.id == itemId || (chainIds s.length s it0.parent_id).contains j.id then
            { j with is_completed := false }
          else j)) := by
  have hid : it0.id = itemId := queryGet_id hq
  have hW : writeBack s { it0 with is_completed := false } = setCompleted s itemId false :=
    writeBack_set_false hn hq
  have hWn : idsNodup (setCompleted s itemId false) := by
    unfold idsNodup
    rw [setCompleted_ids]
    exact hn
  rw [update_item_complete_unfold hn hq false, handle_completion_false_completed hc]
  have hs4 : uncomplete_parent_chain
      (writeBack s { it0 with is_completed := false }).length
      (writeBack s { it0 with is_completed := false }) it0.parent_id
      = (setCompleted s itemId false).map
          (clearOn (chainIds s.length s it0.parent_id)) := by
    rw [hW, setCompleted_length,
      uncomplete_chain_eq s.length (setCompleted s itemId false) it0.parent_id hWn,
      chainIds_setCompleted]
  have hfix : writeBack ((setCompleted s itemId false).map
        (clearOn (chainIds s.length s it0.parent_id)))
        { it0 with is_completed := false }
      = (setCompleted s itemId false).map
          (clearOn (chainIds s.length s it0.parent_id)) := by
    refine writeBack_fixed (fun j hj hjid => ?_)
    obtain ⟨j1, hj1, rfl⟩ := List.mem_map.mp hj
    simp only [setCompleted] at hj1
    obtain ⟨j0, hj0, rfl⟩ := List.mem_map.mp hj1
    have hj0id : j0.id = itemId := by
      have e1 : (clearOn (chainIds s.length s it0.parent_id)
          ((fun j => if j.id == itemId then { j with is_completed := false } else j) j0)).id
          = j0.id := by
        rw [clearOn_id]
        by_cases hb : j0.id = itemId
        · simp [hb]
        · simp [hb]
      rw [e1] at hjid
      rw [hjid]
      exact hid
    have hj0eq : j0 = it0 := queryGet_unique hn hq j0 hj0 hj0id
    rw [hj0eq, show (if (it0.id == itemId) = true
        then ({ it0 with is_completed := false } : Item) else it0)
        = { it0 with is_completed := false } from by simp [hid]]
    unfold clearOn
    split
    · rfl
    · rfl
  show (none, writeBack (uncomplete_parent_chain
      (writeBack s { it0 with is_completed := false }).length
      (writeBack s { it0 with is_completed := false }) it0.parent_id)
      { it0 with is_completed := false }) = _
  rw [hs4, hfix]
  simp only [setCompleted, List.map_map]
  refine congrArg _ (List.map_congr_left (fun j _ => ?_))
  exact clearOn_after_set itemId _ j

/-- P4 store: completed chain A→B→C, a completed sibling S of C, and a
completed child K of C. -/
def uncompleteP4Store : Store := [
  { id := 1, list_id := 1, parent_id := none, title := "A", is_completed := true },
  { id := 2, list_id := 1, parent_id := some 1, title := "B", is_completed := true },
  { id := 3, list_id := 1, parent_id := some 2, title := "C", is_completed := true },
  { id := 4, list_id := 1, parent_id := some 2, title := "S", is_completed := true },
  { id := 5, list_id := 1, parent_id := some 3, title := "K", is_completed := true }]

/-- `uncompleteP4Store` after uncompleting C: C, B and A cleared; the
sibling S and the descendant K keep their completion flags. -/
def uncompleteP4After : Store := [
  { id := 1, list_id := 1, parent_id := none, title := "A" },
  { id := 2, list_id := 1, parent_id := some 1, title := "B" },
  { id := 3, list_id := 1, parent_id := some 2, title := "C" },
  { id := 4, list_id := 1, parent_id := some 2, title := "S", is_completed := true },
  { id := 5, list_id := 1, parent_id := some 3, title := "K", is_completed := true }]

/-- A completed parent B with an already-incomplete child C. -/
def alreadyIncompleteStore : Store := [
  { id := 2, list_id := 1, parent_id := none, title := "B", is_completed := true },
  { id := 3, list_id := 1, parent_id := some 2, title := "C" }]

/-- C2 counterexample: uncompleting the already-incomplete item C under the
completed parent B leaves the store unchanged — B keeps
`is_completed = true` — refuting the claim that the uncomplete-ancestor
chain runs unconditionally, clearing every completed ancestor even when the
item itself was already incomplete before the call. -/
theorem C2_counterexample :
    update_item alreadyIncompleteStore 3 { is_completed := some false }
      = (none, alreadyIncompleteStore)
    ∧ queryGet alreadyIncompleteStore 2
        = some { id := 2, list_id := 1, parent_id := none, title := "B",
                 is_completed := true } := by decide

/-- C2 (amended): `updateItem(item, {isCompleted: false})` always succeeds,
but the uncomplete-ancestor chain runs only when the item was previously
completed: then the item's flag and the flag of everything on its ancestor
chain are cleared while all other rows (siblings and descendants included)
are untouched, as in the A→B→C scenario with sibling S and descendant K;
when the item was already incomplete the store is unchanged. -/
theorem C2_uncomplete_transition :
    (∀ (s : Store) (itemId : Nat) (it0 : Item), idsNodup s →
      queryGet s itemId = some it0 →
      (update_item s itemId { is_completed := some false }).1 = none
      ∧ (it0.is_completed = false →
          (update_item s itemId { is_completed := some false }).2 = s)
      ∧ (it0.is_completed = true →
          (update_item s itemId { is_completed := some false }).2
            = s.map (fun j =>
                if j.id == itemId
                    || (chainIds s.length s it0.parent_id).contains j.id then
                  { j with is_completed := false }
                else j)))
    ∧ update_item uncompleteP4Store 3 { is_completed := some false }
        = (none, uncompleteP4After) := by
  constructor
  · intro s itemId it0 hn hq
    refine ⟨?_, ?_, ?_⟩
    · cases hc : it0.is_completed with
      | true => rw [update_uncomplete_completed hn hq hc]
      | false =>
        rw [update_item_complete_unfold hn hq false,
          handle_completion_false_incomplete hc]
    · intro hc
      rw [update_item_complete_unfold hn hq false,
        handle_completion_false_incomplete hc]
      show writeBack s it0 = s
      exact writeBack_self hn hq
    · intro hc
      rw [update_uncomplete_completed hn hq hc]
  · decide

/-- Witness for C2: the amended theorem applied to the P4 store at item C
(completed) and to the already-incomplete C of the counterexample store. -/
theorem C2_uncomplete_transition_witness :
    (update_item uncompleteP4Store 3 { is_completed := some false }).1 = none
    ∧ (update_item alreadyIncompleteStore 3 { is_completed := some false }).2
        = alreadyIncompleteStore := by
  constructor
  · exact (C2_uncomplete_transition.1 uncompleteP4Store 3
      { id := 3, list_id := 1, parent_id := some 2, title := "C",
        is_completed := true } (by decide) (by decide)).1
  · exact (C2_uncomplete_transition.1 alreadyIncompleteStore 3
      { id := 3, list_id := 1, parent_id := some 2, title := "C" }
      (by decide) (by decide)).2.1 (by decide)

theorem update_item_tail_error {s0 s : Store} {it : Item} {p : Patch}
    {e : String} (h : (update_item_tail s0 s it p).1 = some e) :
    (update_item_tail s0 s it p).2 = s0 := by
  unfold update_item_tail at h ⊢
  cases hpr : p.priority with
  | none => simp [hpr] at h
  | some pr =>
    simp only [hpr] at h ⊢
    by_cases hv : pr ∈ VALID_PRIORITIES
    · simp [hv] at h
    · simp [hv]

theorem update_item_completion_step_error {s0 sf : Store} {it3 : Item}
    {p : Patch} {b : Bool} {e : String}
    (h : (update_item_completion_step s0 sf it3 p b).1 = some e) :
    (update_item_completion_step s0 sf it3 p b).2 = s0 := by
  unfold update_item_completion_step at h ⊢
  cases hh : handle_completion_update sf it3 b with
  | error e2 => simp [hh]
  | ok r =>
    simp only [hh] at h ⊢
    exact update_item_tail_error h

/-- C7: `updateItem` is atomic on validation failure — whenever the
operation returns an error (invalid priority, rejected completion
transition, unknown item), no commit has run and the persisted store is
exactly the store from before the call, whatever else the patch contained. -/
theorem C7_update_atomic_on_error :
    ∀ (s : Store) (itemId : Nat) (p : Patch) (e : String),
      (update_item s itemId p).1 = some e → (update_item s itemId p).2 = s := by
  intro s itemId p e h
  unfold update_item at h ⊢
  cases hq : queryGet s itemId with
  | none => simp [hq]
  | some it0 =>
    simp only [hq] at h ⊢
    cases hpc : p.is_completed with
    | none =>
      simp only [hpc] at h ⊢
      exact update_item_tail_error h
    | some b =>
      simp only [hpc] at h ⊢
      exact update_item_completion_step_error h

/-- Witness for C7: a patch carrying a valid title change and the invalid
priority value `top` fails and leaves the store untouched. -/
theorem C7_update_atomic_on_error_witness :
    (update_item chainStore 1 { title := some "T", priority := some "top" }).2
      = chainStore :=
  C7_update_atomic_on_error chainStore 1
    { title := some "T", priority := some "top" } invalidPriorityMsg (by decide)

theorem foldl_count_eq (p : Item → Bool) :
    ∀ (s : Store) (n : Nat),
      s.foldl (fun acc j => if p j then acc + 1 else acc) n
        = n + (s.filter p).length := by
  intro s
  induction s with
  | nil => intro n; simp
  | cons a t ih =>
    intro n
    cases hp : p a with
    | true => simp [List.filter_cons, hp, ih]; omega
    | false => simp [List.filter_cons, hp, ih]

/-- C9: `completeAllTasks(listId)` marks every row of the list completed at
any depth and in any hierarchy state, keeps every row of other lists
untouched, and returns exactly the number of rows whose flag was false; on a
list whose items are all completed it returns 0 and changes nothing. -/
theorem C9_complete_all :
    (∀ (s : Store) (l : Nat),
      (complete_all_tasks s l).1
          = (s.filter (fun j => j.list_id == l && !j.is_completed)).length
      ∧ (∀ j ∈ s, j.list_id = l →
          { j with is_completed := true } ∈ (complete_all_tasks s l).2)
      ∧ (∀ j ∈ s, j.list_id ≠ l → j ∈ (complete_all_tasks s l).2))
    ∧ (∀ (s : Store) (l : Nat), (∀ j ∈ s, j.list_id = l → j.is_completed = true) →
        complete_all_tasks s l = (0, s)) := by
  constructor
  · intro s l
    refine ⟨?_, ?_, ?_⟩
    · show s.foldl _ 0 = _
      rw [foldl_count_eq]
      simp
    · intro j hj hjl
      refine List.mem_map.mpr ⟨j, hj, ?_⟩
      simp [hjl]
    · intro j hj hjl
      refine List.mem_map.mpr ⟨j, hj, ?_⟩
      simp [hjl]
  · intro s l hall
    unfold complete_all_tasks
    have h1 : s.filter (fun j => j.list_id == l && !j.is_completed) = [] := by
      rw [List.filter_eq_nil_iff]
      intro j hj
      by_cases hl : j.list_id = l
      · simp [hl, hall j hj hl]
      · simp [hl]
    have h2 : s.map (fun j => if j.list_id == l then { j with is_completed := true }
        else j) = s := by
      calc s.map (fun j => if j.list_id == l then { j with is_completed := true }
            else j) = s.map id := List.map_congr_left (fun j hj => by
          by_cases hl : j.list_id = l
          · show (if (j.list_id == l) = true then ({ j with is_completed := true } : Item)
                else j) = id j
            rw [if_pos (by simp [hl] : (j.list_id == l) = true)]
            exact set_true_eq_self (hall j hj hl)
          · show (if (j.list_id == l) = true then ({ j with is_completed := true } : Item)
                else j) = id j
            rw [if_neg (by simp [hl])]
            rfl)
        _ = s := List.map_id s
    rw [foldl_count_eq, h1, h2]
    simp

/-- Witness for C9: on the fully-completed P4 store the bulk completion
returns 0 and changes nothing; on the all-incomplete chain store it reports
3 flips. -/
theorem C9_complete_all_witness :
    complete_all_tasks uncompleteP4Store 1 = (0, uncompleteP4Store)
    ∧ (complete_all_tasks chainStore 1).1 = 3 := by
  constructor
  · exact C9_complete_all.2 uncompleteP4Store 1 (by decide)
  · rw [(C9_complete_all.1 chainStore 1).1]; decide

/-- A root item A in list 1 with one child B. -/
def moveListStore : Store := [
  { id := 1, list_id := 1, parent_id := none, title := "A" },
  { id := 2, list_id := 1, parent_id := some 1, title := "B" }]

/-- C6 counterexample: moving root item A of `moveListStore` to list 2
succeeds, but its child B keeps `list_id = 1` while its parent now has
`list_id = 2` — refuting the claim that every item of the moved subtree gets
the target list id and that `parent.list_id == child.list_id` holds after
the move. -/
theorem C6_counterexample :
    (move_to_list moveListStore 1 2).1 = none
    ∧ queryGet (move_to_list moveListStore 1 2).2 1
        = some { id := 1, list_id := 2, parent_id := none, title := "A" }
    ∧ queryGet (move_to_list moveListStore 1 2).2 2
        = some { id := 2, list_id := 1, parent_id := some 1, title := "B" } := by
  decide

/-- C6 (amended): `moveToList` succeeds only for root items, failing with
the only-top-level validation error (store unchanged) otherwise; on success
only the moved item's own `list_id` becomes the target — every other row,
its descendants included, is untouched, so the parent/child same-list
invariant can break for an item with children. -/
theorem C6_move_to_list :
    ∀ (s : Store) (itemId : Nat) (it0 : Item) (target : Nat),
      queryGet s itemId = some it0 →
      (it0.parent_id ≠ none →
        move_to_list s itemId target = (some "Can only move top-level items", s))
      ∧ (it0.parent_id = none →
        (move_to_list s itemId target).1 = none
        ∧ queryGet (move_to_list s itemId target).2 itemId
            = some { it0 with list_id := target }
        ∧ (∀ j ∈ s, j.id ≠ itemId → j ∈ (move_to_list s itemId target).2)) := by
  intro s itemId it0 target hq
  have hid : it0.id = itemId := queryGet_id hq
  constructor
  · intro hp
    have hps : it0.parent_id.isSome = true := Option.isSome_iff_ne_none.mpr hp
    simp [move_to_list, hq, hps]
  · intro hp
    have hps : it0.parent_id.isSome = false := by simp [hp]
    simp only [move_to_list, hq, hps, Bool.false_eq_true, if_false]
    refine ⟨by trivial, ?_, ?_⟩
    · have hmem : ({ it0 with list_id := target } : Item).id ∈ s.map Item.id := by
        show it0.id ∈ s.map Item.id
        exact List.mem_map_of_mem Item.id (queryGet_mem hq)
      have hres := queryGet_writeBack_self hmem
      rw [← hid]
      exact hres
    · intro j hj hjne
      refine List.mem_map.mpr ⟨j, hj, ?_⟩
      have : ¬j.id = ({ it0 with list_id := target } : Item).id := by
        show ¬j.id = it0.id
        rw [hid]
        exact hjne
      simp [this]

/-- Witness for C6: moving the child B fails with the only-top-level error
and an unchanged store; moving the root A succeeds. -/
theorem C6_move_to_list_witness :
    move_to_list moveListStore 2 2
      = (some "Can only move top-level items", moveListStore)
    ∧ (move_to_list moveListStore 1 5).1 = none := by
  constructor
  · exact (C6_move_to_list moveListStore 2
      { id := 2, list_id := 1, parent_id := some 1, title := "B" } 2
      (by decide)).1 (by decide)
  · exact ((C6_move_to_list moveListStore 1
      { id := 1, list_id := 1, parent_id := none, title := "A" } 5
      (by decide)).2 rfl).1

/-- C5: `moveToParent(a, x)` with `x == a` or `x` a descendant of `a` (that
is, `a` on `x`'s ancestor chain) fails with the cannot-move-to-descendant
validation error, and the store — in particular `a`'s `parent_id` and
`order` — is unchanged.  The same-list hypothesis reflects data-model
invariant 2 (an item and its descendants share one list). -/
theorem C5_no_cycle_guard :
    ∀ (s : Store) (itemId : Nat) (it0 : Item) (xId : Nat) (x : Item),
      queryGet s itemId = some it0 → queryGet s xId = some x →
      x.list_id = it0.list_id →
      (xId = itemId ∨ is_ancestor_of s it0.id x = true) →
      move_to_parent s itemId (some xId) = (some "Cannot move to descendant", s) := by
  intro s itemId it0 xId x hq hx hlist hcase
  unfold move_to_parent
  simp only [hq, hx]
  have hne : (x.list_id != it0.list_id) = false := by simp [hlist]
  have hguard : (x.id == it0.id || is_ancestor_of s it0.id x) = true := by
    rcases hcase with h1 | h1
    · have hx1 : x.id = xId := queryGet_id hx
      have hx2 : it0.id = itemId := queryGet_id hq
      rw [Bool.or_eq_true]
      left
      simp [hx1, hx2, h1]
    · rw [Bool.or_eq_true]
      right
      exact h1
  simp [hne, hguard]

/-- Witness for C5: in the chain A→B→C, moving A under its descendant C and
moving A under itself are both rejected with an unchanged store. -/
theorem C5_no_cycle_guard_witness :
    move_to_parent chainStore 1 (some 3)
      = (some "Cannot move to descendant", chainStore)
    ∧ move_to_parent chainStore 1 (some 1)
      = (some "Cannot move to descendant", chainStore) := by
  constructor
  · exact C5_no_cycle_guard chainStore 1
      { id := 1, list_id := 1, parent_id := none, title := "A" } 3
      { id := 3, list_id := 1, parent_id := some 2, title := "C" }
      (by decide) (by decide) (by decide) (Or.inr (by decide))
  · exact C5_no_cycle_guard chainStore 1
      { id := 1, list_id := 1, parent_id := none, title := "A" } 1
      { id := 1, list_id := 1, parent_id := none, title := "A" }
      (by decide) (by decide) (by decide) (Or.inl rfl)

/-- Two root items in different lists. -/
def crossListStore : Store := [
  { id := 1, list_id := 1, parent_id := none, title := "P" },
  { id := 9, list_id := 2, parent_id := none, title := "Z" }]

/-- C8 counterexample: creating an item under the absent parent id 99
answers HTTP 404 (the not-found class), not a 400-class ValidationError as
the claim states — the spec's own taxonomy maps ValidationError to 400 and
NotFoundError to 404. -/
theorem C8_counterexample :
    create_item_route_check chainStore 1 (some 99)
      = some (404, "Parent item not found")
    ∧ (create_item_route_check chainStore 1 (some 99)).map Prod.fst
        ≠ some 400 := by
  decide

/-- C8 (amended): `createItem` with an absent parent fails with
NotFoundError (HTTP 404, message `Parent item not found`); with a parent
from another list it fails with ValidationError (HTTP 400, message
`Parent item not in same list`); and `moveToParent` to a target in another
list fails with the cannot-move-to-different-list ValidationError. -/
theorem C8_parent_validation :
    (∀ (s : Store) (l : Nat) (pid : Nat), queryGet s pid = none →
      create_item_route_check s l (some pid) = some (404, "Parent item not found"))
    ∧ (∀ (s : Store) (l : Nat) (pid : Nat) (par : Item),
        queryGet s pid = some par → par.list_id ≠ l →
        create_item_route_check s l (some pid)
          = some (400, "Parent item not in same list"))
    ∧ (∀ (s : Store) (itemId : Nat) (it0 : Item) (npid : Nat) (np : Item),
        queryGet s itemId = some it0 → queryGet s npid = some np →
        np.list_id ≠ it0.list_id →
        move_to_parent_lit s itemId (some npid)
          = .ok (some "Cannot move to different list", s)) := by
  refine ⟨?_, ?_, ?_⟩
  · intro s l pid h
    simp [create_item_route_check, h]
  · intro s l pid par h hne
    simp [create_item_route_check, h, hne]
  · intro s itemId it0 npid np hq hx hne
    simp [move_to_parent_lit, hq, hx, hne]

/-- Witness for C8: a cross-list parent and a cross-list move target are
both rejected on `crossListStore`. -/
theorem C8_parent_validation_witness :
    create_item_route_check crossListStore 1 (some 9)
      = some (400, "Parent item not in same list")
    ∧ move_to_parent_lit crossListStore 1 (some 9)
      = .ok (some "Cannot move to different list", crossListStore) := by
  constructor
  · exact C8_parent_validation.2.1 crossListStore 1 9
      { id := 9, list_id := 2, parent_id := none, title := "Z" }
      (by decide) (by decide)
  · exact C8_parent_validation.2.2 crossListStore 1
      { id := 1, list_id := 1, parent_id := none, title := "P" } 9
      { id := 9, list_id := 2, parent_id := none, title := "Z" }
      (by decide) (by decide) (by decide)

instance {ε α : Type} [DecidableEq ε] [DecidableEq α] :
    DecidableEq (Except ε α) := fun x y =>
  match x, y with
  | .error a, .error b =>
    if h : a = b then .isTrue (h ▸ rfl)
    else .isFalse (fun hc => h (Except.error.inj hc))
  | .error _, .ok _ => .isFalse (fun hc => Except.noConfusion hc)
  | .ok _, .error _ => .isFalse (fun hc => Except.noConfusion hc)
  | .ok a, .ok b =>
    if h : a = b then .isTrue (h ▸ rfl)
    else .isFalse (fun hc => h (Except.ok.inj hc))

/-- C4 counterexample: `move_to_parent` with the existing non-null target 9
(which is not item 1) returns the cross-list domain error as a value — it
does not raise — refuting the claim that every non-null target other than
the item itself raises AttributeError. -/
theorem C4_counterexample :
    move_to_parent_lit crossListStore 1 (some 9)
      = .ok (some "Cannot move to different list", crossListStore)
    ∧ ¬∃ exc : PyExc, move_to_parent_lit crossListStore 1 (some 9)
        = .error exc := by
  constructor
  · decide
  · rintro ⟨exc, h⟩
    rw [show move_to_parent_lit crossListStore 1 (some 9)
        = .ok (some "Cannot move to different list", crossListStore) from by decide] at h
    exact Except.noConfusion h

/-- C4 (amended): the model class lacks the attributes the services use, so
every `create_item` call raises TypeError on the `priority` keyword; a patch
asking to complete raises AttributeError on `can_be_completed`; a patch
uncompleting a currently-completed item raises AttributeError on
`uncomplete_parent_chain`; and `move_to_parent` to an existing same-list
target other than the item itself raises AttributeError on
`is_ancestor_of` (an absent or cross-list target returns a domain error
value first, without raising). -/
theorem C4_missing_model_attributes :
    (∀ (s : Store) (newId list_id : Nat) (title : String) (parent_id : Option Nat)
        (description : Option String) (priority : String) (order : Int),
      create_item_lit s newId list_id title parent_id description priority order
        = .error (.typeError "priority is an invalid keyword argument for TodoItem"))
    ∧ (∀ (s : Store) (itemId : Nat) (it0 : Item) (p : Patch),
        queryGet s itemId = some it0 → p.is_completed = some true →
        update_item_lit s itemId p = .error (.attributeError "can_be_completed"))
    ∧ (∀ (s : Store) (itemId : Nat) (it0 : Item) (p : Patch),
        queryGet s itemId = some it0 → p.is_completed = some false →
        it0.is_completed = true →
        update_item_lit s itemId p
          = .error (.attributeError "uncomplete_parent_chain"))
    ∧ (∀ (s : Store) (itemId : Nat) (it0 : Item) (npid : Nat) (np : Item),
        queryGet s itemId = some it0 → queryGet s npid = some np →
        np.list_id = it0.list_id → np.id ≠ it0.id →
        move_to_parent_lit s itemId (some npid)
          = .error (.attributeError "is_ancestor_of")) := by
  refine ⟨?_, ?_, ?_, ?_⟩
  · intro s newId list_id title parent_id description priority order
    rfl
  · intro s itemId it0 p hq hp
    simp [update_item_lit, hq, hp]
  · intro s itemId it0 p hq hp hc
    obtain ⟨t, d, o, ic, coll, pr⟩ := p
    simp only at hp
    subst hp
    unfold update_item_lit
    simp only [hq]
    cases t <;> cases d <;> cases o <;> simp [hc]
  · intro s itemId it0 npid np hq hx hlist hne
    have h1 : (np.list_id != it0.list_id) = false := by simp [hlist]
    have h2 : (np.id == it0.id) = false := by simp [hne]
    simp [move_to_parent_lit, hq, hx, h1, h2]

/-- Witness for C4: each of the four raising paths hit at a concrete
store. -/
theorem C4_missing_model_attributes_witness :
    create_item_lit chainStore 7 1 "N" none none "medium" 0
      = .error (.typeError "priority is an invalid keyword argument for TodoItem")
    ∧ update_item_lit chainStore 3 { is_completed := some true }
      = .error (.attributeError "can_be_completed")
    ∧ update_item_lit uncompleteP4Store 3 { is_completed := some false }
      = .error (.attributeError "uncomplete_parent_chain")
    ∧ move_to_parent_lit chainStore 1 (some 2)
      = .error (.attributeError "is_ancestor_of") := by
  refine ⟨?_, ?_, ?_, ?_⟩
  · exact C4_missing_model_attributes.1 chainStore 7 1 "N" none none "medium" 0
  · exact C4_missing_model_attributes.2.1 chainStore 3
      { id := 3, list_id := 1, parent_id := some 2, title := "C" }
      { is_completed := some true } (by decide) rfl
  · exact C4_missing_model_attributes.2.2.1 uncompleteP4Store 3
      { id := 3, list_id := 1, parent_id := some 2, title := "C",
        is_completed := true }
      { is_completed := some false } (by decide) rfl (by decide)
  · exact C4_missing_model_attributes.2.2.2 chainStore 1
      { id := 1, list_id := 1, parent_id := none, title := "A" } 2
      { id := 2, list_id := 1, parent_id := some 1, title := "B" }
      (by decide) (by decide) (by decide) (by decide)

/-- `chainStoreD` plus an unrelated root item in another list. -/
def deleteStore : Store :=
  chainStoreD ++ [{ id := 9, list_id := 2, parent_id := none, title := "Z" }]

/-- C10: the code diverges from the claimed (and documented, and unit-tested)
subtree cascade.  Deleting root A of `moveListStore` — the
`test_cascade_delete_item` scenario, whose claim/test expects both rows
removed — removes only A and leaves the child B alive, re-rooted with
`parent_id = NULL`; deleting the leaf C of the chain A→B→C — where the
claim expects exactly the one record C removed — cascades up the ancestor
chain and empties the store.  Deleting a list does remove exactly the rows
carrying its `list_id`, as claimed. -/
theorem C10_delete_cascade_divergence :
    delete_item moveListStore 1
      = [{ id := 2, list_id := 1, parent_id := none, title := "B" }]
    ∧ delete_item chainStore 3 = []
    ∧ delete_list_items deleteStore 1
      = [{ id := 9, list_id := 2, parent_id := none, title := "Z" }] := by
  decide

theorem queryGet_append {s t : Store} {k : Nat} {p : Item}
    (h : queryGet s k = some p) : queryGet (s ++ t) k = some p := by
  induction s with
  | nil => simp [queryGet, List.find?] at h
  | cons a u ih =>
    unfold queryGet at h ⊢
    rw [List.find?_cons] at h
    rw [List.cons_append, List.find?_cons]
    cases hab : (a.id == k) with
    | true => rw [hab] at h; exact h
    | false => rw [hab] at h; exact ih h

theorem idsNodup_append_fresh {s : Store} {it : Item} (hn : idsNodup s)
    (hf : ¬it.id ∈ s.map Item.id) : idsNodup (s ++ [it]) := by
  unfold idsNodup at *
  rw [List.map_append, List.nodup_append]
  refine ⟨hn, List.nodup_singleton _, ?_⟩
  intro x hx hx2
  have : x = it.id := by simpa using hx2
  exact hf (this ▸ hx)

/-- `create_item` under a completed parent: the inserted row is appended,
the parent's flag is cleared, and every row on the parent's ancestor chain
is cleared; every other row is untouched. -/
theorem create_item_completed_parent {s : Store} {newId l pid : Nat}
    {title : String} {desc : Option String} {prio : String} {ord : Int}
    {par : Item} (hn : idsNodup s) (hfresh : ¬newId ∈ s.map Item.id)
    (hq : queryGet s pid = some par) (hc : par.is_completed = true) :
    ∀ s1 : Store, s1 = s ++ [{ id := newId, list_id := l, parent_id := some pid,
                               title := title, description := desc,
                               is_completed := false, is_collapsed := false,
                               priority := prio, order := ord }] →
      (create_item s newId l title (some pid) desc prio ord).2
        = s1.map (fun j =>
            if j.id == pid || (chainIds s1.length s1 par.parent_id).contains j.id
            then { j with is_completed := false } else j) := by
  intro s1 hs1
  have hq1 : queryGet s1 pid = some par := hs1 ▸ queryGet_append hq
  have hn1 : idsNodup s1 := hs1 ▸ idsNodup_append_fresh hn (by simpa using hfresh)
  have hn2 : idsNodup (setCompleted s1 pid false) := by
    unfold idsNodup
    rw [setCompleted_ids]
    exact hn1
  simp only [create_item]
  rw [← hs1]
  simp only [hq1, hc, if_true]
  rw [setCompleted_length,
    uncomplete_chain_eq s1.length (setCompleted s1 pid false) par.parent_id hn2,
    chainIds_setCompleted]
  simp only [setCompleted, List.map_map]
  exact List.map_congr_left (fun j _ => clearOn_after_set pid _ j)

/-- A completed root P and an incomplete root X in the same list. -/
def reparentStore : Store := [
  { id := 1, list_id := 1, parent_id := none, title := "P", is_completed := true },
  { id := 2, list_id := 1, parent_id := none, title := "X" }]

/-- `reparentStore` after moving X under P: P keeps its completed flag. -/
def reparentAfter : Store := [
  { id := 1, list_id := 1, parent_id := none, title := "P", is_completed := true },
  { id := 2, list_id := 1, parent_id := some 1, title := "X", order := 1 }]

/-- Completed chain G→P→X, all completed. -/
def moveOutStore : Store := [
  { id := 1, list_id := 1, parent_id := none, title := "G", is_completed := true },
  { id := 2, list_id := 1, parent_id := some 1, title := "P", is_completed := true },
  { id := 3, list_id := 1, parent_id := some 2, title := "X", is_completed := true }]

/-- `moveOutStore` after moving X to root: the old parent P keeps its flag;
only P's ancestor G is uncompleted. -/
def moveOutAfter : Store := [
  { id := 1, list_id := 1, parent_id := none, title := "G" },
  { id := 2, list_id := 1, parent_id := some 1, title := "P", is_completed := true },
  { id := 3, list_id := 1, parent_id := none, title := "X", is_completed := true,
    order := 1 }]

/-- C3 counterexample: re-parenting the incomplete item X under the
currently-completed parent P succeeds and leaves P's completion flag true —
the move does not flip the new parent's flag, and the resulting tree
contains a completed node (P) with an incomplete direct child (X). -/
theorem C3_counterexample :
    move_to_parent reparentStore 2 (some 1) = (none, reparentAfter)
    ∧ queryGet reparentAfter 1
        = some { id := 1, list_id := 1, parent_id := none, title := "P",
                 is_completed := true }
    ∧ queryGet reparentAfter 2
        = some { id := 2, list_id := 1, parent_id := some 1, title := "X",
                 order := 1 } := by
  decide

/-- C3 (amended): `createItem` under a completed parent clears the parent's
flag and every completed row on the parent's ancestor chain, leaving all
other rows untouched; `moveToParent`, however, runs the uncomplete chain
only from the old/new parent's own parent, so the old/new parent's flag
itself is unchanged: moving completed X out of the completed chain G→P→X
clears the grandparent G but leaves the old parent P completed, and moving
incomplete X under completed P leaves P completed with an incomplete
child. -/
theorem C3_child_insertion_uncompletes :
    (∀ (s : Store) (newId l pid : Nat) (title : String) (desc : Option String)
        (prio : String) (ord : Int) (par : Item),
      idsNodup s → ¬newId ∈ s.map Item.id →
      queryGet s pid = some par → par.is_completed = true →
      ∀ s1 : Store, s1 = s ++ [{ id := newId, list_id := l, parent_id := some pid,
                                 title := title, description := desc,
                                 is_completed := false, is_collapsed := false,
                                 priority := prio, order := ord }] →
        (create_item s newId l title (some pid) desc prio ord).2
          = s1.map (fun j =>
              if j.id == pid || (chainIds s1.length s1 par.parent_id).contains j.id
              then { j with is_completed := false } else j))
    ∧ move_to_parent moveOutStore 3 none = (none, moveOutAfter)
    ∧ move_to_parent reparentStore 2 (some 1) = (none, reparentAfter) := by
  refine ⟨?_, by decide, by decide⟩
  intro s newId l pid title desc prio ord par hn hfresh hq hc s1 hs1
  exact create_item_completed_parent hn hfresh hq hc s1 hs1

/-- Witness for C3: creating a new child under the completed C of the fully
completed P4 store clears C, B and A while the completed S and K keep their
flags and the new row is appended incomplete. -/
theorem C3_child_insertion_uncompletes_witness :
    (create_item uncompleteP4Store 7 1 "N" (some 3) none "medium" 0).2 = [
      { id := 1, list_id := 1, parent_id := none, title := "A" },
      { id := 2, list_id := 1, parent_id := some 1, title := "B" },
      { id := 3, list_id := 1, parent_id := some 2, title := "C" },
      { id := 4, list_id := 1, parent_id := some 2, title := "S",
        is_completed := true },
      { id := 5, list_id := 1, parent_id := some 3, title := "K",
        is_completed := true },
      { id := 7, list_id := 1, parent_id := some 3, title := "N" }] := by
  have h := C3_child_insertion_uncompletes.1 uncompleteP4Store 7 1 3 "N" none
    "medium" 0
    { id := 3, list_id := 1, parent_id := some 2, title := "C",
      is_completed := true }
    (by decide) (by decide) (by decide) (by decide) _ rfl
  rw [h]
  decide
